import Mathlib

/-!
# Verification of the react-pagination demo (backend `app.js` + frontend `DataTable.jsx`)

Shallow embedding of the paginated-table feature:

* the Express handler `app.get("/users")` in `react-pagination/backend/app.js`
  (query-parameter parsing with JavaScript `parseInt(·, 10)`, validation,
  the Sequelize `findAndCountAll` call over the in-memory SQLite store, and
  the JSON response shape), and
* the client query-state handlers of `react-pagination/frontend/src/components/DataTable.jsx`
  (`handleSearch`, the limit `<select>` onChange, the Previous/Next buttons and
  the direct page-number input).

The database is a list of user records; the SQL query
`WHERE name LIKE '%s%' OR email LIKE '%s%' ORDER BY col dir LIMIT l OFFSET o`
is embedded as filter + sort + drop/take, with SQLite's `LIKE` operator
modelled including its `%`/`_` wildcards and its ASCII case-insensitivity
(the search string is interpolated into the pattern unescaped, exactly as in
`app.js`).
-/

namespace Pagination

/-- A row of the `Users` table: `id` (auto-increment, 1-based seed order),
`name` and `email`.  Timestamps are not modelled; no claim mentions them. -/
structure UserRec where
  id : Nat
  name : String
  email : String
deriving Repr, DecidableEq

/-! ## JavaScript string/number primitives used by the handler -/

/-- `String.prototype.toUpperCase()` restricted to ASCII, which covers every
string the handler upper-cases (`order` values such as "asc", "DESC",
"SIDEWAYS"). -/
def jsToUpper (s : String) : String := ⟨s.data.map Char.toUpper⟩

/-- The longest leading run of decimal digits of a character list. -/
def leadingDigits : List Char → List Char
  | [] => []
  | c :: cs => if '0' ≤ c ∧ c ≤ '9' then c :: leadingDigits cs else []

/-- Value of a digit string, most significant digit first. -/
def digitsToNat (ds : List Char) : Nat :=
  ds.foldl (fun a c => a * 10 + (c.toNat - '0'.toNat)) 0

/-- Digit-run parser: `none` models JavaScript `NaN` (no leading digit). -/
def parseDigits (cs : List Char) : Option Nat :=
  match leadingDigits cs with
  | [] => none
  | ds => some (digitsToNat ds)

/-- JavaScript `parseInt(s, 10)`: skip leading whitespace, read an optional
sign and then the longest run of decimal digits; `NaN` (here `none`) when no
digit follows.  Trailing garbage is ignored, so `parseInt("2abc", 10) = 2`. -/
def parseIntJS (s : String) : Option Int :=
  match s.data.dropWhile Char.isWhitespace with
  | '+' :: rest => (parseDigits rest).map (fun n => (n : Int))
  | '-' :: rest => (parseDigits rest).map (fun n => -(n : Int))
  | rest => (parseDigits rest).map (fun n => (n : Int))

/-! ## The SQLite `LIKE` operator

`app.js` issues `name LIKE '%${search}%' OR email LIKE '%${search}%'` through
Sequelize.  SQLite's `LIKE` is case-insensitive for ASCII and interprets `%`
(any sequence) and `_` (any single character); the search string is spliced
into the pattern with no escaping. -/

/-- SQLite `LIKE` pattern matching (ASCII case-insensitive): `%` matches any
character sequence, `_` any single character, and other pattern characters
match up to ASCII case folding.  Structural recursion on the pattern; a `%`
consumes an arbitrary suffix via `List.tails`. -/
def likeMatch : List Char → List Char → Bool
  | [], t => t.isEmpty
  | p :: ps, t =>
    if p = '%' then t.tails.any (fun s => likeMatch ps s)
    else if p = '_' then
      match t with
      | [] => false
      | _ :: ts => likeMatch ps ts
    else
      match t with
      | [] => false
      | c :: ts => (Char.toUpper p == Char.toUpper c) && likeMatch ps ts

/-- `field LIKE '%search%'`, the pattern built exactly as in `app.js`. -/
def likeContains (search field : String) : Bool :=
  likeMatch ('%' :: (search.data ++ ['%'])) field.data

/-- The `Op.or` of the two `Op.like` conditions in the `where` clause:
does `u` match the search term on name or email? -/
def matchesUser (search : String) (u : UserRec) : Bool :=
  likeContains search u.name || likeContains search u.email

/-! ## The spec's notion of substring match (for comparison with `LIKE`)

The spec describes the query as "a case-insensitive substring match on name
OR email".  These definitions follow the spec's words, to be compared with
the `LIKE`-based matcher actually run by the code. -/

/-- Case-insensitive (ASCII) prefix test on character lists. -/
def matchAt : List Char → List Char → Bool
  | [], _ => true
  | _ :: _, [] => false
  | p :: ps, c :: cs => (Char.toUpper p == Char.toUpper c) && matchAt ps cs

/-- Case-insensitive (ASCII) substring containment: `pat` occurs inside the
second list. -/
def hasSub (pat : List Char) : List Char → Bool
  | [] => matchAt pat []
  | c :: cs => matchAt pat (c :: cs) || hasSub pat cs

/-- Spec-side matcher: the search term occurs as a case-insensitive substring
of the user's name or email. -/
def substrMatches (search : String) (u : UserRec) : Bool :=
  hasSub search.data u.name.data || hasSub search.data u.email.data

/-- A search term is wildcard-free when it contains neither of SQLite's
`LIKE` metacharacters `%` and `_`. -/
def noWildcard (search : String) : Bool :=
  search.data.all (fun c => c ≠ '%' && c ≠ '_')

/-! ## The query: `findAndCountAll` -/

/-- SQLite's default BINARY collation: lexicographic byte-wise comparison
(UTF-8 byte order agrees with code-point order). -/
def charListLe : List Char → List Char → Bool
  | [], _ => true
  | _ :: _, [] => false
  | a :: as, b :: bs => if a = b then charListLe as bs else decide (a < b)

/-- `ORDER BY` comparison for one column.  The seeded data's sortable columns
are `id`, `name`, `email`; string columns compare under SQLite's default
byte-wise (BINARY) collation. -/
def fieldLe (orderBy : String) (a b : UserRec) : Bool :=
  if orderBy = "email" then charListLe a.email.data b.email.data
  else if orderBy = "id" then decide (a.id ≤ b.id)
  else charListLe a.name.data b.name.data

/-- Insertion step of the sort implementing `ORDER BY`. -/
def insertUser (le : UserRec → UserRec → Bool) (x : UserRec) : List UserRec → List UserRec
  | [] => [x]
  | y :: ys => if le x y then x :: y :: ys else y :: insertUser le x ys

/-- Sort implementing `ORDER BY` (insertion sort; any sort yields the same
multiset, which is all the claims depend on). -/
def sortUsers (le : UserRec → UserRec → Bool) : List UserRec → List UserRec
  | [] => []
  | x :: xs => insertUser le x (sortUsers le xs)

/-- The `order: [[orderBy, order.toUpperCase()]]` clause: sort ascending by
the column, reversed comparison for `DESC`. -/
def orderClause (orderBy ordUp : String) (l : List UserRec) : List UserRec :=
  if ordUp = "DESC" then sortUsers (fun a b => fieldLe orderBy b a) l
  else sortUsers (fieldLe orderBy) l

/-- Columns of the embedded record on which `ORDER BY` succeeds; any other
`orderBy` makes the query throw, which the handler's `catch` turns into an
HTTP 500. -/
def validColumn (orderBy : String) : Bool :=
  orderBy = "id" || orderBy = "name" || orderBy = "email"

/-- `User.findAndCountAll({where, order, offset, limit})`: `count` is the
number of records matching the `where` clause, `rows` the offset/limit window
of the sorted matches. -/
def findAndCountAll (db : List UserRec) (search orderBy ordUp : String)
    (offset lim : Nat) : Nat × List UserRec :=
  let matched := db.filter (matchesUser search)
  (matched.length, ((orderClause orderBy ordUp matched).drop offset).take lim)

/-! ## The `GET /users` handler -/

/-- Outcome of one request: the JSON success body
`{totalUsers, totalPages, currentPage, users}` (HTTP 200), or
`res.status(400).json({error})`, or `res.status(500).json({error})`. -/
inductive HandlerResult where
  | ok (totalUsers totalPages currentPage : Nat) (users : List UserRec)
  | clientError (msg : String)
  | serverError (msg : String)
deriving Repr, DecidableEq

/-- The HTTP status code of a `HandlerResult`. -/
def HandlerResult.status : HandlerResult → Nat
  | .ok _ _ _ _ => 200
  | .clientError _ => 400
  | .serverError _ => 500

/-- The `users` field of the response body, absent on error responses. -/
def HandlerResult.usersField : HandlerResult → Option (List UserRec)
  | .ok _ _ _ us => some us
  | .clientError _ => none
  | .serverError _ => none

/-- The `totalUsers` field of the response body, absent on error responses. -/
def HandlerResult.totalUsersField : HandlerResult → Option Nat
  | .ok t _ _ _ => some t
  | .clientError _ => none
  | .serverError _ => none

/-- The `totalPages` field of the response body, absent on error responses. -/
def HandlerResult.totalPagesField : HandlerResult → Option Nat
  | .ok _ tp _ _ => some tp
  | .clientError _ => none
  | .serverError _ => none

/-- The `currentPage` field of the response body, absent on error responses. -/
def HandlerResult.currentPageField : HandlerResult → Option Nat
  | .ok _ _ cp _ => some cp
  | .clientError _ => none
  | .serverError _ => none

/-- `Math.ceil(count / limitNumber)` on the nonnegative integers the handler
feeds it (with `limitNumber ≥ 1`): ceiling division. -/
def ceilDiv (a b : Nat) : Nat := (a + b - 1) / b

/-- The `app.get("/users")` handler.  Parameters arrive as the query-string
values; when a parameter is absent Express's destructuring supplies the
defaults `page = 1`, `limit = 10`, `search = ""`, `orderBy = "name"`,
`order = "ASC"` (the numeric defaults round-trip through `parseInt` as the
strings "1" and "10").  Mirrors `app.js` lines 36-89: parse `page`/`limit`,
reject `NaN` or values `< 1` with 400, reject an `order` whose upper-casing
is not ASC/DESC with 400, then run `findAndCountAll` and answer with
`{totalUsers: count, totalPages: Math.ceil(count/limit), currentPage, users}`;
a query failure (unknown `orderBy` column) is caught and answered with 500. -/
def getUsers (db : List UserRec) (page lim search orderBy ord : String) :
    HandlerResult :=
  match parseIntJS page, parseIntJS lim with
  | some pn, some ln =>
    if pn < 1 ∨ ln < 1 then
      .clientError "Invalid page or limit parameter."
    else if ¬ (["ASC", "DESC"].contains (jsToUpper ord)) then
      .clientError "Invalid order parameter. Use ASC or DESC."
    else if validColumn orderBy then
      let countRows :=
        findAndCountAll db search orderBy (jsToUpper ord)
          ((pn.toNat - 1) * ln.toNat) ln.toNat
      .ok countRows.fst (ceilDiv countRows.fst ln.toNat) pn.toNat countRows.snd
    else
      .serverError "An error occurred while fetching users."
  | _, _ => .clientError "Invalid page or limit parameter."

/-! ## The seeded dataset -/

/-- The seed loop body: `User.create({name: `User ${i}`, email: `user${i}@example.com`})`
for `i = 1..100`; `id` is SQLite's auto-increment, i.e. `i`. -/
def seedUser (i : Nat) : UserRec :=
  { id := i, name := "User " ++ toString i, email := "user" ++ toString i ++ "@example.com" }

/-- The database after the seed loop: `User 1` .. `User 100` in id order. -/
def seedDB : List UserRec := (List.range 100).map (fun k => seedUser (k + 1))

/-- A three-record store used to instantiate universally quantified theorems
on concrete inputs. -/
def seedDB3 : List UserRec := (List.range 3).map (fun k => seedUser (k + 1))

/-! ## The client (`DataTable.jsx`) query state -/

/-- The three `useState` variables of `DataTable` that make up the query:
`search` (text input), `pageIndex` (0-based page), `limit` (page size; the
`<select>` stores `e.target.value`, a string — the initial state is the
number 10, rendered here as its string). `pageIndex` is an integer, as in
JavaScript. -/
structure ClientState where
  search : String
  pageIndex : Int
  limit : String
deriving Repr, DecidableEq

/-- `handleSearch`: `setSearch(e.target.value); setPageIndex(0);`. -/
def handleSearch (s : ClientState) (value : String) : ClientState :=
  { s with search := value, pageIndex := 0 }

/-- The limit `<select>`'s onChange: `setLimit(e.target.value);` — and
nothing else. -/
def handleLimitChange (s : ClientState) (value : String) : ClientState :=
  { s with limit := value }

/-- The Previous button's onClick: `setPageIndex(pageIndex - 1)` (plus the
table library's own `previousPage()`, which touches no `useState`). -/
def previousClick (s : ClientState) : ClientState :=
  { s with pageIndex := s.pageIndex - 1 }

/-- The Next button's onClick: `setPageIndex(pageIndex + 1)` (plus
`nextPage()`). -/
def nextClick (s : ClientState) : ClientState :=
  { s with pageIndex := s.pageIndex + 1 }

/-- The page-number input's onChange: `setPageIndex(page)` where
`page = e.target.value ? Number(e.target.value) - 1 : 0` (plus
`gotoPage(page)`); the argument is that already-computed number. -/
def gotoPageInput (s : ClientState) (page : Int) : ClientState :=
  { s with pageIndex := page }

/-! ## Helper lemmas -/

theorem insertUser_length (le : UserRec → UserRec → Bool) (x : UserRec)
    (l : List UserRec) : (insertUser le x l).length = l.length + 1 := by
  induction l with
  | nil => rfl
  | cons y ys ih =>
    simp only [insertUser]
    split <;> simp [ih]

theorem sortUsers_length (le : UserRec → UserRec → Bool) (l : List UserRec) :
    (sortUsers le l).length = l.length := by
  induction l with
  | nil => rfl
  | cons x xs ih => simp [sortUsers, insertUser_length, ih]

theorem orderClause_length (orderBy ordUp : String) (l : List UserRec) :
    (orderClause orderBy ordUp l).length = l.length := by
  unfold orderClause
  split <;> apply sortUsers_length

/-- Inversion of a successful `getUsers` call: the parameters parsed and
validated, and each response field is the corresponding query expression. -/
theorem getUsers_ok_inv {db : List UserRec} {page lim search orderBy ord : String}
    {t tp cp : Nat} {us : List UserRec}
    (h : getUsers db page lim search orderBy ord = .ok t tp cp us) :
    ∃ pn ln : Int, parseIntJS page = some pn ∧ parseIntJS lim = some ln ∧
      1 ≤ pn ∧ 1 ≤ ln ∧
      t = (db.filter (matchesUser search)).length ∧
      tp = ceilDiv t ln.toNat ∧ cp = pn.toNat ∧
      us = ((orderClause orderBy (jsToUpper ord)
              (db.filter (matchesUser search))).drop
              ((pn.toNat - 1) * ln.toNat)).take ln.toNat := by
  unfold getUsers at h
  cases hp : parseIntJS page with
  | none => rw [hp] at h; simp at h
  | some pn =>
    cases hl : parseIntJS lim with
    | none => rw [hp, hl] at h; simp at h
    | some ln =>
      rw [hp, hl] at h
      simp only [findAndCountAll] at h
      split_ifs at h with h1 h2 h3
      · simp only [HandlerResult.ok.injEq] at h
        obtain ⟨ht, htp, hcp, hus⟩ := h
        exact ⟨pn, ln, rfl, rfl, by omega, by omega, ht.symm, by rw [ht] at htp; exact htp.symm,
          hcp.symm, hus.symm⟩

/-! ## Claims about the client query state (C2, C9) -/

/-- C2 counterexample: changing the page size does NOT reset the page index —
from the state (search `""`, page index 3, limit `"10"`), selecting a limit of
`"20"` leaves the page index at 3, not 0.  The limit `<select>`'s onChange
calls only `setLimit`. -/
theorem limitChange_keeps_pageIndex :
    (handleLimitChange ⟨"", 3, "10"⟩ "20").pageIndex = 3 ∧ (3 : Int) ≠ 0 := by
  exact ⟨rfl, by decide⟩

/-- C2 (amended): a search-text change resets the page index to 0 and leaves
the limit unchanged; a page-size change updates only the limit, leaving the
page index (and search) unchanged — it does not reset the page to the first
page. -/
theorem search_resets_page_limit_does_not (s : ClientState) (v : String) :
    (handleSearch s v).pageIndex = 0 ∧
    (handleSearch s v).search = v ∧
    (handleSearch s v).limit = s.limit ∧
    (handleLimitChange s v).limit = v ∧
    (handleLimitChange s v).pageIndex = s.pageIndex ∧
    (handleLimitChange s v).search = s.search :=
  ⟨rfl, rfl, rfl, rfl, rfl, rfl⟩

/-- C9: the Previous/Next buttons and the direct page-number input change only
the page index (to `pageIndex - 1`, `pageIndex + 1`, and the entered page
respectively); the search text and the limit are unchanged by all three. -/
theorem pagination_controls_touch_only_pageIndex (s : ClientState) (p : Int) :
    (previousClick s).search = s.search ∧
    (previousClick s).limit = s.limit ∧
    (previousClick s).pageIndex = s.pageIndex - 1 ∧
    (nextClick s).search = s.search ∧
    (nextClick s).limit = s.limit ∧
    (nextClick s).pageIndex = s.pageIndex + 1 ∧
    (gotoPageInput s p).search = s.search ∧
    (gotoPageInput s p).limit = s.limit ∧
    (gotoPageInput s p).pageIndex = p :=
  ⟨rfl, rfl, rfl, rfl, rfl, rfl, rfl, rfl, rfl⟩

/-! ## The seeded scenario (C3) -/

/-- C3 counterexample: the search `"User 1"` over the 100 seeded records has
exactly 12 matches (`User 1`, `User 10`..`User 19`, `User 100`), not the 11
the spec counts. -/
theorem seeded_search_matches_twelve :
    (seedDB.filter (matchesUser "User 1")).length = 12 ∧ (12 : Nat) ≠ 11 :=
  ⟨rfl, by decide⟩

/-- C3 (amended): with the seeded 100 records, `page=1&limit=10&search=User 1`
matches exactly the 12 records `User 1`, `User 10`..`User 19`, `User 100`
(12 substring matches), and the response paginates them as page 1 of 2 with
10 rows on page 1. -/
theorem seeded_search_scenario :
    (seedDB.filter (matchesUser "User 1")).map UserRec.name =
      ["User 1", "User 10", "User 11", "User 12", "User 13", "User 14",
       "User 15", "User 16", "User 17", "User 18", "User 19", "User 100"] ∧
    (getUsers seedDB "1" "10" "User 1" "name" "ASC").totalUsersField = some 12 ∧
    (getUsers seedDB "1" "10" "User 1" "name" "ASC").totalPagesField = some 2 ∧
    (getUsers seedDB "1" "10" "User 1" "name" "ASC").currentPageField = some 1 ∧
    ((getUsers seedDB "1" "10" "User 1" "name" "ASC").usersField).map List.length
      = some 10 :=
  ⟨by rfl, by rfl, by rfl, by rfl, by rfl⟩

/-! ## Pagination arithmetic (C1, C4, C6) -/

/-- C1: for every query the handler answers successfully, `totalUsers` is the
number of records matching the search and `totalPages = ceil(totalUsers/limit)`
— stated both as the code's integer form and as Mathlib's ceiling division
`⌈/⌉` (the least `c` with `totalUsers ≤ limit * c`). -/
theorem totalPages_is_ceil (db : List UserRec) (page lim search orderBy ord : String)
    (t tp cp : Nat) (us : List UserRec) (ln : Int)
    (hok : getUsers db page lim search orderBy ord = .ok t tp cp us)
    (hl : parseIntJS lim = some ln) :
    t = (db.filter (matchesUser search)).length ∧
    tp = ceilDiv t ln.toNat ∧ tp = t ⌈/⌉ ln.toNat := by
  obtain ⟨pn, ln', hp', hl', h1, h2, ht, htp, hcp, hus⟩ := getUsers_ok_inv hok
  rw [hl] at hl'
  injection hl' with hln
  subst hln
  refine ⟨ht, htp, htp.trans ?_⟩
  exact (Nat.ceilDiv_eq_add_pred_div t ln.toNat).symm

/-- Witness for C1 on a concrete query: three records, limit 2 — two pages. -/
theorem totalPages_is_ceil_witness :
    3 = (seedDB3.filter (matchesUser "")).length ∧
    2 = ceilDiv 3 (2 : Int).toNat ∧ 2 = 3 ⌈/⌉ (2 : Int).toNat :=
  totalPages_is_ceil seedDB3 "1" "2" "" "name" "ASC" 3 2 1
    [seedUser 1, seedUser 2] 2 (by rfl) (by rfl)

/-- C4: every successful response carries at most `limit` rows, and exactly
`limit` rows on every page strictly before the last (`currentPage < totalPages`). -/
theorem page_length_bounds (db : List UserRec) (page lim search orderBy ord : String)
    (t tp cp : Nat) (us : List UserRec) (ln : Int)
    (hok : getUsers db page lim search orderBy ord = .ok t tp cp us)
    (hl : parseIntJS lim = some ln) :
    us.length ≤ ln.toNat ∧ (cp < tp → us.length = ln.toNat) := by
  obtain ⟨pn, ln', hp', hl', h1, h2, ht, htp, hcp, hus⟩ := getUsers_ok_inv hok
  rw [hl] at hl'
  injection hl' with hln
  subst hln
  constructor
  · rw [hus, List.length_take]
    exact Nat.min_le_left _ _
  · intro hlt
    rw [hus, List.length_take, List.length_drop, orderClause_length]
    have hL : 1 ≤ ln.toNat := by omega
    have hP : 1 ≤ pn.toNat := by omega
    rw [hcp, htp, ht] at hlt
    set c := (db.filter (matchesUser search)).length with hc
    have hdiv : pn.toNat + 1 ≤ (c + ln.toNat - 1) / ln.toNat := hlt
    have hmul : (pn.toNat + 1) * ln.toNat ≤ c + ln.toNat - 1 :=
      (Nat.le_div_iff_mul_le (by omega)).mp hdiv
    have e1 : (pn.toNat + 1) * ln.toNat = pn.toNat * ln.toNat + ln.toNat := by ring
    have e2 : (pn.toNat - 1) * ln.toNat = pn.toNat * ln.toNat - ln.toNat := by
      rw [Nat.sub_mul, one_mul]
    have hq : ln.toNat ≤ pn.toNat * ln.toNat := Nat.le_mul_of_pos_left _ (by omega)
    rw [e1] at hmul
    rw [← ht, e2]
    rw [Nat.min_eq_left (by omega)]

/-- Witness for C4 on a concrete query: three records, limit 2, page 1 of 2
— exactly 2 rows. -/
theorem page_length_bounds_witness :
    ([seedUser 1, seedUser 2] : List UserRec).length ≤ (2 : Int).toNat ∧
    (1 < 2 → ([seedUser 1, seedUser 2] : List UserRec).length = (2 : Int).toNat) :=
  page_length_bounds seedDB3 "1" "2" "" "name" "ASC" 3 2 1
    [seedUser 1, seedUser 2] 2 (by rfl) (by rfl)

/-- C6: a successful request for a page strictly beyond `totalPages` yields an
empty `users` array with HTTP 200, not an error. -/
theorem beyond_last_page_empty (db : List UserRec) (page lim search orderBy ord : String)
    (t tp cp : Nat) (us : List UserRec)
    (hok : getUsers db page lim search orderBy ord = .ok t tp cp us)
    (hbeyond : tp < cp) :
    us = [] ∧ (getUsers db page lim search orderBy ord).status = 200 := by
  obtain ⟨pn, ln, hp', hl', h1, h2, ht, htp, hcp, hus⟩ := getUsers_ok_inv hok
  refine ⟨?_, by rw [hok]; rfl⟩
  rw [hus]
  have hL : 1 ≤ ln.toNat := by omega
  have hP : 1 ≤ pn.toNat := by omega
  rw [htp, hcp, ht] at hbeyond
  set c := (db.filter (matchesUser search)).length with hc
  have hdiv : (c + ln.toNat - 1) / ln.toNat < pn.toNat := hbeyond
  have hmul : c + ln.toNat - 1 < pn.toNat * ln.toNat :=
    (Nat.div_lt_iff_lt_mul (by omega)).mp hdiv
  have e2 : (pn.toNat - 1) * ln.toNat = pn.toNat * ln.toNat - ln.toNat := by
    rw [Nat.sub_mul, one_mul]
  have hq : ln.toNat ≤ pn.toNat * ln.toNat := Nat.le_mul_of_pos_left _ (by omega)
  have hnil : (orderClause orderBy (jsToUpper ord)
      (db.filter (matchesUser search))).drop ((pn.toNat - 1) * ln.toNat) = [] := by
    apply List.drop_eq_nil_of_le
    rw [orderClause_length, e2, ← hc]
    omega
  rw [hnil, List.take_nil]

/-- Witness for C6 on a concrete query: three records, limit 2, page 5 — the
response is 200 with no rows. -/
theorem beyond_last_page_empty_witness :
    ([] : List UserRec) = [] ∧
    (getUsers seedDB3 "5" "2" "" "name" "ASC").status = 200 :=
  beyond_last_page_empty seedDB3 "5" "2" "" "name" "ASC" 3 2 5 []
    (by rfl) (by decide)

/-! ## Input validation (C5, C8, C10) -/

/-- C5: a parsed `page` or `limit` below 1 is rejected with an HTTP 400
client error carrying a message, as is any `order` whose upper-casing is
neither ASC nor DESC; in particular `page=0` and `order=SIDEWAYS` each get
status 400. -/
theorem validation_rejects (db : List UserRec) (page lim search orderBy ord : String) :
    ((∃ pn, parseIntJS page = some pn ∧ pn < 1) ∨
      (∃ ln, parseIntJS lim = some ln ∧ ln < 1) →
      ∃ m, getUsers db page lim search orderBy ord = .clientError m) ∧
    (jsToUpper ord ≠ "ASC" → jsToUpper ord ≠ "DESC" →
      ∃ m, getUsers db page lim search orderBy ord = .clientError m) ∧
    (getUsers db "0" lim search orderBy ord).status = 400 ∧
    (getUsers db page lim search orderBy "SIDEWAYS").status = 400 := by
  refine ⟨?_, ?_, ?_, ?_⟩
  · rintro (⟨pn, hpn, hlt⟩ | ⟨ln, hln, hlt⟩)
    · cases hl2 : parseIntJS lim with
      | none => simp [getUsers, hpn, hl2]
      | some ln2 => simp [getUsers, hpn, hl2, hlt]
    · cases hp2 : parseIntJS page with
      | none => simp [getUsers, hp2]
      | some pn2 => simp [getUsers, hp2, hln, hlt]
  · intro hA hD
    cases hp2 : parseIntJS page with
    | none => simp [getUsers, hp2]
    | some pn2 =>
      cases hl2 : parseIntJS lim with
      | none => simp [getUsers, hp2, hl2]
      | some ln2 =>
        by_cases hv : pn2 < 1 ∨ ln2 < 1
        · simp [getUsers, hp2, hl2, hv]
        · refine ⟨"Invalid order parameter. Use ASC or DESC.", ?_⟩
          have hcond : ¬ ((["ASC", "DESC"].contains (jsToUpper ord)) = true) := by
            simp [hA, hD]
          simp only [getUsers, hp2, hl2]
          rw [if_neg hv, if_pos hcond]
  · cases hl2 : parseIntJS lim with
    | none =>
      have h0 : parseIntJS "0" = some 0 := rfl
      simp [getUsers, h0, hl2, HandlerResult.status]
    | some ln2 =>
      have h0 : parseIntJS "0" = some 0 := rfl
      simp [getUsers, h0, hl2, HandlerResult.status]
  · have hcond : ¬ ((["ASC", "DESC"].contains (jsToUpper "SIDEWAYS")) = true) := by
      decide
    cases hp2 : parseIntJS page with
    | none => simp [getUsers, hp2, HandlerResult.status]
    | some pn2 =>
      cases hl2 : parseIntJS lim with
      | none => simp [getUsers, hp2, hl2, HandlerResult.status]
      | some ln2 =>
        by_cases hv : pn2 < 1 ∨ ln2 < 1
        · simp [getUsers, hp2, hl2, hv, HandlerResult.status]
        · simp only [getUsers, hp2, hl2]
          rw [if_neg hv, if_pos hcond]
          rfl

/-- Witness for C5: `page=0` and a lowercase non-direction `order` are both
answered with a client error on a concrete store. -/
theorem validation_rejects_witness :
    (∃ m, getUsers seedDB3 "0" "10" "" "name" "ASC" = HandlerResult.clientError m) ∧
    (∃ m, getUsers seedDB3 "1" "10" "" "name" "sideways" = HandlerResult.clientError m) :=
  ⟨(validation_rejects seedDB3 "0" "10" "" "name" "ASC").1 (Or.inl ⟨0, rfl, by decide⟩),
   (validation_rejects seedDB3 "1" "10" "" "name" "sideways").2.1
     (by decide) (by decide)⟩

/-- Modelled from the spec's words "malformed numeric inputs": a well-formed
decimal numeral is an optional sign followed by one or more digits and
nothing else; anything else is malformed. -/
def wellFormedNumeral (s : String) : Bool :=
  match s.data with
  | '+' :: rest => rest ≠ [] && rest.all (fun c => '0' ≤ c && c ≤ '9')
  | '-' :: rest => rest ≠ [] && rest.all (fun c => '0' ≤ c && c ≤ '9')
  | rest => rest ≠ [] && rest.all (fun c => '0' ≤ c && c ≤ '9')

/-- C8 counterexample: `page=2abc` is a malformed numeric string, yet
`parseInt("2abc", 10) = 2` so the handler accepts the request and answers
HTTP 200 — not a validation failure. -/
theorem malformed_page_accepted :
    wellFormedNumeral "2abc" = false ∧
    parseIntJS "2abc" = some 2 ∧
    (getUsers seedDB "2abc" "10" "" "name" "ASC").status = 200 :=
  ⟨by rfl, by rfl, by rfl⟩

/-- C8 (amended): a `page` or `limit` string with no leading integer at all
(`parseInt` yields `NaN`) is rejected with HTTP 400; strings with a leading
integer followed by garbage are accepted as that integer.  No error response
carries a `users` field, so no partial results are returned on error. -/
theorem nan_rejected_no_partial_results (db : List UserRec)
    (page lim search orderBy ord : String) :
    ((parseIntJS page = none ∨ parseIntJS lim = none) →
      (getUsers db page lim search orderBy ord).status = 400) ∧
    ((getUsers db page lim search orderBy ord).status ≠ 200 →
      (getUsers db page lim search orderBy ord).usersField = none) := by
  constructor
  · rintro (hp | hl)
    · cases hl2 : parseIntJS lim with
      | none => simp [getUsers, hp, hl2, HandlerResult.status]
      | some ln2 => simp [getUsers, hp, hl2, HandlerResult.status]
    · cases hp2 : parseIntJS page with
      | none => simp [getUsers, hp2, HandlerResult.status]
      | some pn2 => simp [getUsers, hp2, hl, HandlerResult.status]
  · intro hne
    cases h : getUsers db page lim search orderBy ord with
    | ok t tp cp us => rw [h] at hne; exact absurd rfl hne
    | clientError m => rfl
    | serverError m => rfl

/-- Witness for C8: `page=abc` parses to `NaN` and is answered 400 with no
`users` field. -/
theorem nan_rejected_witness :
    (getUsers seedDB3 "abc" "10" "" "name" "ASC").status = 400 ∧
    (getUsers seedDB3 "abc" "10" "" "name" "ASC").usersField = none :=
  ⟨(nan_rejected_no_partial_results seedDB3 "abc" "10" "" "name" "ASC").1
      (Or.inl rfl),
   (nan_rejected_no_partial_results seedDB3 "abc" "10" "" "name" "ASC").2
      (by decide)⟩

/-- C10: with valid `page` and `limit`, a request passes direction validation
(i.e. is not answered 400) exactly when the upper-cased `order` is ASC or
DESC, and the query runs on the upper-cased direction: lowercase "asc"/"desc"
produce the same response as "ASC"/"DESC". -/
theorem order_case_insensitive (db : List UserRec) (page lim search orderBy ord : String)
    (pn ln : Int) (hp : parseIntJS page = some pn) (hl : parseIntJS lim = some ln)
    (h1 : 1 ≤ pn) (h2 : 1 ≤ ln) :
    ((getUsers db page lim search orderBy ord).status ≠ 400 ↔
      (jsToUpper ord = "ASC" ∨ jsToUpper ord = "DESC")) ∧
    getUsers db page lim search orderBy "asc" = getUsers db page lim search orderBy "ASC" ∧
    getUsers db page lim search orderBy "desc" = getUsers db page lim search orderBy "DESC" := by
  have hv : ¬ (pn < 1 ∨ ln < 1) := by omega
  refine ⟨?_, ?_, ?_⟩
  · by_cases hord : (["ASC", "DESC"].contains (jsToUpper ord)) = true
    · have hmem : jsToUpper ord = "ASC" ∨ jsToUpper ord = "DESC" := by
        simpa using hord
      simp only [getUsers, hp, hl]
      rw [if_neg hv, if_neg (fun hc => hc hord)]
      cases hvc : validColumn orderBy <;>
        simp [hvc, HandlerResult.status] <;> tauto
    · have hmem : ¬ (jsToUpper ord = "ASC" ∨ jsToUpper ord = "DESC") := by
        simpa using hord
      simp only [getUsers, hp, hl]
      rw [if_neg hv, if_pos hord]
      simp [HandlerResult.status, hmem]
  · have e : jsToUpper "asc" = jsToUpper "ASC" := rfl
    simp only [getUsers, e]
  · have e : jsToUpper "desc" = jsToUpper "DESC" := rfl
    simp only [getUsers, e]

/-- Witness for C10: `order=desc` is accepted (status 200, not 400) on a
concrete store. -/
theorem order_case_insensitive_witness :
    ((getUsers seedDB3 "1" "10" "" "name" "desc").status ≠ 400 ↔
      (jsToUpper "desc" = "ASC" ∨ jsToUpper "desc" = "DESC")) ∧
    getUsers seedDB3 "1" "10" "" "name" "asc" = getUsers seedDB3 "1" "10" "" "name" "ASC" ∧
    getUsers seedDB3 "1" "10" "" "name" "desc" = getUsers seedDB3 "1" "10" "" "name" "DESC" :=
  order_case_insensitive seedDB3 "1" "10" "" "name" "desc" 1 10
    (by rfl) (by rfl) (by decide) (by decide)

/-! ## `LIKE` versus substring search (C7)

For wildcard-free search terms the `LIKE '%s%'` condition run by the code is
exactly the spec's case-insensitive substring match; the unescaped wildcards
`%` and `_` break that correspondence. -/

theorem list_any_congr {α : Type} {f g : α → Bool} :
    ∀ {l : List α}, (∀ a ∈ l, f a = g a) → l.any f = l.any g := by
  intro l
  induction l with
  | nil => intro _; rfl
  | cons x xs ih =>
    intro h
    simp only [List.any_cons, h x (by simp), ih (fun a ha => h a (by simp [ha]))]

theorem tails_any_isEmpty (t : List Char) :
    (t.tails.any (fun s => s.isEmpty)) = true := by
  induction t with
  | nil => rfl
  | cons c cs ih => simp [List.tails, ih]

/-- A wildcard-free pattern followed by a single `%` accepts exactly the
texts the pattern prefixes (up to ASCII case). -/
theorem likeMatch_wildcard_free_percent (ps : List Char)
    (hw : ∀ c ∈ ps, c ≠ '%' ∧ c ≠ '_') :
    ∀ t : List Char, likeMatch (ps ++ ['%']) t = matchAt ps t := by
  induction ps with
  | nil =>
    intro t
    have h1 : likeMatch ([] ++ ['%']) t
        = t.tails.any (fun s => likeMatch [] s) := by
      simp [likeMatch]
    rw [h1]
    exact tails_any_isEmpty t
  | cons p ps ih =>
    intro t
    have hp := hw p (by simp)
    have ih' := ih (fun c hc => hw c (by simp [hc]))
    cases t with
    | nil => simp [likeMatch, matchAt, hp.1, hp.2]
    | cons c ts => simp [likeMatch, matchAt, hp.1, hp.2, ih' ts]

/-- Scanning all suffixes with a prefix test is substring containment. -/
theorem tails_any_matchAt (ps : List Char) :
    ∀ t : List Char, (t.tails.any (fun s => matchAt ps s)) = hasSub ps t := by
  intro t
  induction t with
  | nil => simp [List.tails, hasSub]
  | cons c ts ih => simp [List.tails, hasSub, ih]

/-- For a wildcard-free search term, the `LIKE '%search%'` test the code runs
is the spec's case-insensitive substring containment. -/
theorem likeContains_eq_hasSub (search field : String)
    (hw : noWildcard search = true) :
    likeContains search field = hasSub search.data field.data := by
  have hw' : ∀ c ∈ search.data, c ≠ '%' ∧ c ≠ '_' := by
    intro c hc
    have h := List.all_eq_true.mp hw c hc
    simpa using h
  have h1 : likeContains search field
      = field.data.tails.any (fun s => likeMatch (search.data ++ ['%']) s) := by
    simp [likeContains, likeMatch]
  rw [h1,
    list_any_congr (fun s _ => likeMatch_wildcard_free_percent search.data hw' s),
    tails_any_matchAt]

/-- For a wildcard-free search term, the code's row matcher agrees with the
spec's substring matcher. -/
theorem matchesUser_eq_substrMatches (search : String)
    (hw : noWildcard search = true) (u : UserRec) :
    matchesUser search u = substrMatches search u := by
  unfold matchesUser substrMatches
  rw [likeContains_eq_hasSub search u.name hw,
    likeContains_eq_hasSub search u.email hw]

/-- C7 counterexample: the search term `"%"` is a substring of no seeded
record's name or email, yet — because the code splices it unescaped into the
`LIKE` pattern — the response reports all 100 records, not `totalUsers = 0`
with empty `users`. -/
theorem wildcard_search_matches_everything :
    seedDB.all (fun u => ! substrMatches "%" u) = true ∧
    (getUsers seedDB "1" "10" "%" "name" "ASC").totalUsersField = some 100 ∧
    (getUsers seedDB "1" "10" "%" "name" "ASC").status = 200 :=
  ⟨by rfl, by rfl, by rfl⟩

/-- C7 (amended): for every wildcard-free search term (no `%`, no `_`) that
matches no record's name or email as a case-insensitive substring, a
successful response has `totalUsers = 0` and an empty `users` array. -/
theorem no_match_empty_result (db : List UserRec)
    (page lim search orderBy ord : String) (t tp cp : Nat) (us : List UserRec)
    (hw : noWildcard search = true)
    (hm : ∀ u ∈ db, substrMatches search u = false)
    (hok : getUsers db page lim search orderBy ord = .ok t tp cp us) :
    t = 0 ∧ us = [] ∧
    (getUsers db page lim search orderBy ord).totalUsersField = some 0 ∧
    (getUsers db page lim search orderBy ord).usersField = some [] := by
  obtain ⟨pn, ln, hp', hl', h1, h2, ht, htp, hcp, hus⟩ := getUsers_ok_inv hok
  have hfil : db.filter (matchesUser search) = [] := by
    rw [List.filter_eq_nil_iff]
    intro u hu
    rw [matchesUser_eq_substrMatches search hw u, hm u hu]
    exact Bool.false_ne_true
  have ht0 : t = 0 := by rw [ht, hfil]; rfl
  have hle : ∀ le, sortUsers le ([] : List UserRec) = [] := fun _ => rfl
  have hord0 : orderClause orderBy (jsToUpper ord) ([] : List UserRec) = [] := by
    unfold orderClause
    split <;> rfl
  have hus0 : us = [] := by
    rw [hus, hfil, hord0, List.drop_nil, List.take_nil]
  refine ⟨ht0, hus0, ?_, ?_⟩ <;>
    rw [hok] <;> simp [HandlerResult.totalUsersField, HandlerResult.usersField, ht0, hus0]

/-- Witness for C7 on a concrete query: the term `"zzz"` matches nothing in
the three-record store and the response is `totalUsers = 0`, `users = []`. -/
theorem no_match_empty_result_witness :
    (0 : Nat) = 0 ∧ ([] : List UserRec) = [] ∧
    (getUsers seedDB3 "1" "10" "zzz" "name" "ASC").totalUsersField = some 0 ∧
    (getUsers seedDB3 "1" "10" "zzz" "name" "ASC").usersField = some [] :=
  no_match_empty_result seedDB3 "1" "10" "zzz" "name" "ASC" 0 0 1 []
    (by rfl) (by decide) (by rfl)

end Pagination
